import Mathlib

/-!
Verification of the Form.IO server boot core (`src/index.js`): the hook/alter
extension registry, the sandboxed evaluator configuration and registration,
and the default middleware installation performed by `router.init`.

The JavaScript source is shallowly embedded: each relevant function of
`src/index.js` becomes an executable Lean definition over an explicit model of
JavaScript values (`JSVal`) and of the boot events that `router.init` performs.
Code of the repository that `src/index.js` requires but that is not itself
present (the hook registry implementation `./src/util/hook`, and the
`IsolateVMEvaluator` class from `./src/vm`) is modelled from the
specification, as marked in the corresponding doc comments.
-/

namespace Formio

/-- A model of JavaScript runtime values, sufficient for the truthiness tests
and data flow in `src/index.js`.  Objects (and functions) are abstracted by an
identity tag; arrays keep their elements.  IEEE floating-point subtleties
(`NaN`) are outside the model: numbers are integers. -/
inductive JSVal where
  | undefined
  | null
  | bool (b : Bool)
  | num (n : Int)
  | str (s : String)
  | obj (id : Nat)
  | arr (elems : List JSVal)

/-- JavaScript truthiness: `undefined`, `null`, `false`, `0` and `""` are
falsy; every object and array (even empty) is truthy. -/
def truthy : JSVal → Bool
  | .undefined => false
  | .null => false
  | .bool b => b
  | .num n => n != 0
  | .str s => s != ""
  | .obj _ => true
  | .arr _ => true

/-- Modelled from the spec: the Hook Registry implementation
(`./src/util/hook`, loaded at src/index.js line 322) is not under `src/`.
Per the spec it holds, for each extension-point name, an ordered sequence of
registered handler functions; a handler receives the current value and the
extra call arguments. -/
structure HookRegistry (α : Type) where
  handlers : String → List (α → List α → α)

/-- Modelled from the spec: `alter(pointName, value, ...args)` passes `value`
through every registered handler for `pointName` in registration order, each
handler receiving the current value and returning the next value; if no
handlers are registered it returns `value` unchanged. -/
def HookRegistry.alter (reg : HookRegistry α) (point : String) (value : α)
    (args : List α) : α :=
  (reg.handlers point).foldl (fun acc h => h acc args) value

/-- Modelled from the spec: `invoke(pointName, ...args)` returns `true` iff at
least one handler is registered for `pointName` (all of them run, in
registration order, for their side effects), and `false` when none is,
signalling that the default behavior should be used. -/
def HookRegistry.invoke (reg : HookRegistry α) (point : String)
    (_args : List α) : Bool :=
  !(reg.handlers point).isEmpty

/-- Boot-time configuration failure for the evaluator sandbox (spec §7:
`ConfigurationError`, fatal at boot). -/
inductive ConfigurationError where
  | invalidTimeout
  deriving DecidableEq

/-- The evaluator sandbox instance: its default wall-clock budget in
milliseconds and the reference to the hook registry it was constructed with
(src/index.js line 311 passes `router.formio.hook` as the second constructor
argument; the hook is kept abstract as a type parameter `H`). -/
structure IsolateVMEvaluator (H : Type) where
  timeoutMs : Int
  hook : H

/-- Modelled from the spec: the `IsolateVMEvaluator` constructor lives in
`./src/vm`, which is not under `src/`.  The argument shape comes from the
source (src/index.js line 311: options object `{timeoutMs: config.vmTimeout}`
and the hook registry); the validation comes from the spec (§6): `timeoutMs`
is required to be a positive number, and absence or an invalid value fails
boot-time configuration instead of silently defaulting to unlimited.
`none` models an absent or non-numeric `config.vmTimeout`. -/
def mkIsolateVMEvaluator (timeoutMs : Option Int) (hook : H) :
    Except ConfigurationError (IsolateVMEvaluator H) :=
  match timeoutMs with
  | none => .error .invalidTimeout
  | some t => if 0 < t then .ok ⟨t, hook⟩ else .error .invalidTimeout

/-- Failure taxonomy of an evaluation (spec §7). -/
inductive EvalFailure where
  | timeout
  | compileError (msg : String)
  | runtimeError (msg : String)
  | resourceExceeded
  deriving DecidableEq

/-- An evaluation result: a success value in the safe value model, or a
failure descriptor. -/
inductive EvalOutcome where
  | success (value : JSVal)
  | failure (f : EvalFailure)

/-- Modelled from the spec: one evaluation request.  The untrusted script is
abstracted by its wall-clock behavior: `completesAt = some t` means the script
finishes after `t` milliseconds with outcome `onComplete`; `completesAt =
none` means it never finishes (an infinite loop or a blocking operation).
`timeoutOverride` is the optional per-call budget that falls back to the
sandbox default. -/
structure EvaluationRequest where
  completesAt : Option Int
  onComplete : EvalOutcome
  timeoutOverride : Option Int

/-- The wall-clock budget effective for a request: the per-call override when
present, else the sandbox default. -/
def IsolateVMEvaluator.effectiveTimeout (ev : IsolateVMEvaluator H)
    (req : EvaluationRequest) : Int :=
  req.timeoutOverride.getD ev.timeoutMs

/-- Modelled from the spec: `evaluate` (in `./src/vm`, not under `src/`) runs
the script in an isolated context and starts a wall-clock timer at the
effective budget; if the script has not completed by the deadline the context
is forcibly terminated and a failure tagged `Timeout` is returned.  The
function is total: every request produces an `EvalOutcome`, so the caller is
never hung. -/
def IsolateVMEvaluator.evaluate (ev : IsolateVMEvaluator H)
    (req : EvaluationRequest) : EvalOutcome :=
  match req.completesAt with
  | none => .failure .timeout
  | some t =>
      if t ≤ ev.effectiveTimeout req then req.onComplete
      else .failure .timeout

/-- The default middlewares and routes that `setupMiddlewares`
(src/index.js lines 90–165) may install on the router. -/
inductive RouterAction where
  | useAlias
  | useParams
  | useSanityCheck
  | useBodyParserUrlencoded
  | useBodyParserJson
  | useJsonErrorHandler
  | useCorsWrapper
  | useTokenHandler
  | getTokenRoute
  | getLogoutRoute
  | getCurrentRoute
  | getAccessRoute
  | useConfigHandler
  | usePermissionHandler
  deriving DecidableEq

/-- The source pattern `if (!router.formio.hook.invoke('init', step, ...)) {
install default }`: the default action is installed exactly when the invoke
result is falsy. -/
def condDefault (invoked : Bool) (a : RouterAction) : List RouterAction :=
  if invoked then [] else [a]

/-- Shallow embedding of `setupMiddlewares` (src/index.js lines 90–165) as the
ordered list of router installations it performs.  `invokeInit s` is the
truthiness of `router.formio.hook.invoke('init', s, router.formio)`. -/
def setupMiddlewares (invokeInit : String → Bool) : List RouterAction :=
  condDefault (invokeInit "alias") .useAlias ++
  condDefault (invokeInit "params") .useParams ++
  [.useSanityCheck, .useBodyParserUrlencoded, .useBodyParserJson,
   .useJsonErrorHandler, .useCorsWrapper] ++
  condDefault (invokeInit "token") .useTokenHandler ++
  condDefault (invokeInit "getTempToken") .getTokenRoute ++
  condDefault (invokeInit "logout") .getLogoutRoute ++
  condDefault (invokeInit "current") .getCurrentRoute ++
  condDefault (invokeInit "access") .getAccessRoute ++
  condDefault (invokeInit "config") .useConfigHandler ++
  condDefault (invokeInit "perms") .usePermissionHandler

/-- The default action that `setupMiddlewares` installs for each init
extension step it checks. -/
def defaultActionFor : String → Option RouterAction
  | "alias" => some .useAlias
  | "params" => some .useParams
  | "token" => some .useTokenHandler
  | "getTempToken" => some .getTokenRoute
  | "logout" => some .getLogoutRoute
  | "current" => some .getCurrentRoute
  | "access" => some .getAccessRoute
  | "config" => some .useConfigHandler
  | "perms" => some .usePermissionHandler
  | _ => none

/-- The observable boot steps of `router.init` (src/index.js lines 315–345),
in source order. -/
inductive BootEvent where
  | storeHooks
  | attachUtil
  | createHookRegistry
  | alterConfigFormio
  | loadEncrypt
  | updateInit
  | installMemoryLeakMiddleware
  | install (a : RouterAction)
  | constructEvaluator
  | registerEvaluatorCall
  | mongoConnect
  deriving DecidableEq

/-- Shallow embedding of `router.init` (src/index.js lines 315–345) as the
trace of boot events it performs, paired with the evaluator registration
outcome.  The trace follows the source order: hooks stored, utils attached,
the hook registry created (line 322), `configFormio` altered, encryption
loaded, the db updates loaded and initialized (lines 331–334), the
memory-leak-prevention middleware installed, `setupMiddlewares`,
`configureEvaluator` (construct the `IsolateVMEvaluator` from
`config.vmTimeout` and `router.formio.hook`, then register it), and finally
`setupMongoDBConnection` (`mongoose.connect`).  When evaluator construction
fails, boot aborts there: nothing is registered and no connection follows.
(`./src/db`'s update initialization is not under `src/`; per the spec the
storage connection is established only by the final step.) -/
def routerInit (vmTimeout : Option Int) (hook : H) (invokeInit : String → Bool) :
    List BootEvent × Except ConfigurationError (IsolateVMEvaluator H) :=
  let pre : List BootEvent :=
    [.storeHooks, .attachUtil, .createHookRegistry, .alterConfigFormio,
     .loadEncrypt, .updateInit, .installMemoryLeakMiddleware] ++
    (setupMiddlewares invokeInit).map BootEvent.install
  match mkIsolateVMEvaluator vmTimeout hook with
  | .error e => (pre, .error e)
  | .ok ev =>
      (pre ++ [.constructEvaluator, .registerEvaluatorCall, .mongoConnect],
       .ok ev)

/-- Shallow embedding of `router.formio.log` (src/index.js lines 47–53).
`alter point event req info` is `router.formio.hook.alter('log', event, req,
...info)`.  The debug line is emitted iff the alter result is truthy, and the
emitted payload is `log(event, ...info)` — the original arguments. -/
def routerFormioLog (alter : String → JSVal → JSVal → List JSVal → JSVal)
    (event req : JSVal) (info : List JSVal) : Option (JSVal × List JSVal) :=
  let result := alter "log" event req info
  if truthy result then some (event, info) else none

/-- Shallow embedding of `router.formio.audit` (src/index.js lines 55–63).
Returns the printed value (the spread of `console.log(...result)` is modelled
by emitting the altered result itself) together with whether the `audit`
extension point was invoked.  `alter point info event req` is
`router.formio.hook.alter('audit', info, event, req)`; `info` is passed as a
single (array) value, matching the source. -/
def routerFormioAudit (configAudit : Bool)
    (alter : String → JSVal → JSVal → JSVal → JSVal)
    (event req info : JSVal) : Option JSVal × Bool :=
  if configAudit then
    let result := alter "audit" info event req
    (if truthy result then some result else none, true)
  else (none, false)

/-- The per-request observable state touched by the middleware that
`setupMemoryLeakPrevention` installs (src/index.js lines 69–88). -/
structure MemMWState where
  formsReset : Bool
  cacheReset : Bool
  loggedErrors : Nat
  nextCalls : Nat
  gcRuns : Nat
  deriving DecidableEq

/-- Shallow embedding of the request handler installed by
`setupMemoryLeakPrevention` (src/index.js lines 69–88).  `maxOldSpace` models
`config.maxOldSpace` (`none` when absent; JavaScript treats `0` as falsy,
modelled by the `m != 0` guard); `heapRead` models
`process.memoryUsage().heapTotal / 1024 / 1024`, which may throw; `gcRun`
models `gc()`, which may throw.  The float comparison
`maxOldSpace * 0.8 < heap` is modelled over integers as `4 * m < 5 * heap`.
A thrown error is caught and logged (`console.log(error)`), and `next()` is
always reached. -/
def memoryLeakPreventionHandler (maxOldSpace : Option Int)
    (heapRead : Except String Int) (gcRun : Except String Unit)
    (st : MemMWState) : MemMWState :=
  let st1 := { st with formsReset := true, cacheReset := true }
  let st2 :=
    match maxOldSpace with
    | none => st1
    | some m =>
        if m != 0 then
          match heapRead with
          | .error _ => { st1 with loggedErrors := st1.loggedErrors + 1 }
          | .ok heap =>
              if 4 * m < 5 * heap then
                match gcRun with
                | .error _ => { st1 with loggedErrors := st1.loggedErrors + 1,
                                         gcRuns := st1.gcRuns + 1 }
                | .ok _ => { st1 with gcRuns := st1.gcRuns + 1 }
              else st1
        else st1
  { st2 with nextCalls := st2.nextCalls + 1 }

/-- What the CORS wrapper middleware does with one request. -/
inductive CorsAction where
  | passNext
  | runCors (options : JSVal)

/-- Shallow embedding of the CORS wrapper installed by `setupMiddlewares`
(src/index.js lines 114–126).  `corsRoute` is built once from
`cors(router.formio.hook.alter('cors'))` — `alter` is called with no initial
value, i.e. with `undefined` and no extra arguments.  Per request: a url equal
to `'/'`, or headers already sent, bypass the cors handler and call `next()`
directly; every other request is handed to the cors middleware. -/
def corsWrapper (alter : String → JSVal → List JSVal → JSVal)
    (url : String) (headersSent : Bool) : CorsAction :=
  let corsOptions := alter "cors" .undefined []
  if url == "/" then .passNext
  else if headersSent then .passNext
  else .runCors corsOptions

/-! ## Helper lemmas -/

/-- `x` occurs strictly before `y` in the list `l`. -/
def before (l : List α) (x y : α) : Prop :=
  ∃ i j, i < j ∧ l.get? i = some x ∧ l.get? j = some y

theorem before_of_append {l1 l2 : List α} {x y : α}
    (hx : x ∈ l1) (hy : y ∈ l2) : before (l1 ++ l2) x y := by
  obtain ⟨i, hi⟩ := List.get?_of_mem hx
  obtain ⟨j, hj⟩ := List.get?_of_mem hy
  obtain ⟨hilt, -⟩ := List.get?_eq_some.mp hi
  refine ⟨i, l1.length + j, by omega, ?_, ?_⟩
  · rw [List.get?_append hilt]; exact hi
  · rw [List.get?_append_right (by omega)]
    simpa using hj

theorem before_of_split (l1 l2 : List α) {l : List α} {x y : α}
    (h : l = l1 ++ l2) (hx : x ∈ l1) (hy : y ∈ l2) : before l x y :=
  h ▸ before_of_append hx hy

theorem mem_condDefault {b : Bool} {a x : RouterAction} :
    x ∈ condDefault b a ↔ b = false ∧ x = a := by
  cases b <;> simp [condDefault]

/-! ## Claim theorems -/

/-- C7: for every value `v` and every extension-point name `p` whose handler
list is empty, `alter(p, v, ...args)` returns `v` unchanged (identity law). -/
theorem alter_identity_on_empty_handlers {α : Type} (reg : HookRegistry α)
    (p : String) (v : α) (args : List α) (h : reg.handlers p = []) :
    reg.alter p v args = v := by
  simp [HookRegistry.alter, h]

theorem alter_identity_on_empty_handlers_witness :
    HookRegistry.alter ⟨fun _ => []⟩ "cors" (3 : Nat) [] = 3 :=
  alter_identity_on_empty_handlers ⟨fun _ => []⟩ "cors" 3 [] rfl

/-- C4: whenever a request's script has not completed by the effective
deadline — in particular when it never completes (`completesAt = none`, an
infinite loop or blocking operation) — `evaluate` returns a failure tagged
`Timeout`; `evaluate` is a total function, so the caller is never hung. -/
theorem evaluate_timeout_when_deadline_exceeded (ev : IsolateVMEvaluator H)
    (req : EvaluationRequest)
    (h : ∀ t, req.completesAt = some t → ev.effectiveTimeout req < t) :
    ev.evaluate req = .failure .timeout := by
  unfold IsolateVMEvaluator.evaluate
  cases hc : req.completesAt with
  | none => rfl
  | some t =>
      have ht := h t hc
      have hnot : ¬ t ≤ ev.effectiveTimeout req := by omega
      simp [hnot]

theorem evaluate_timeout_when_deadline_exceeded_witness :
    IsolateVMEvaluator.evaluate (H := Unit) ⟨50, ()⟩
      ⟨none, .success .undefined, none⟩ = .failure .timeout :=
  evaluate_timeout_when_deadline_exceeded ⟨50, ()⟩
    ⟨none, .success .undefined, none⟩ (by intro t ht; cases ht)

/-- C6: `router.formio.log` emits the debug line iff
`hook.alter('log', event, req, ...info)` is truthy, and what it emits is the
original `event` and `info` arguments, not the alter result. -/
theorem routerFormioLog_gated_emits_originals
    (alter : String → JSVal → JSVal → List JSVal → JSVal)
    (event req : JSVal) (info : List JSVal) :
    (routerFormioLog alter event req info ≠ none ↔
      truthy (alter "log" event req info) = true)
    ∧ (∀ e i, routerFormioLog alter event req info = some (e, i) →
        e = event ∧ i = info) := by
  constructor
  · cases h : truthy (alter "log" event req info) <;>
      simp [routerFormioLog, h]
  · intro e i hei
    by_cases h : truthy (alter "log" event req info) = true
    · simp [routerFormioLog, h] at hei
      exact ⟨hei.1.symm, hei.2.symm⟩
    · simp [routerFormioLog, h] at hei

theorem routerFormioLog_gated_emits_originals_witness :
    (routerFormioLog (fun _ _ _ _ => .bool true) (.str "event") .null [] ≠ none ↔
      truthy ((fun (_ : String) (_ : JSVal) (_ : JSVal) (_ : List JSVal) =>
        JSVal.bool true) "log" (.str "event") .null []) = true)
    ∧ (∀ e i, routerFormioLog (fun _ _ _ _ => .bool true) (.str "event") .null []
        = some (e, i) → e = .str "event" ∧ i = []) :=
  routerFormioLog_gated_emits_originals (fun _ _ _ _ => .bool true)
    (.str "event") .null []

/-- C8: `router.formio.audit` with falsy `config.audit` prints nothing and
never invokes the `audit` extension point; with truthy `config.audit` the
point is invoked and output occurs iff the altered result is truthy, the
printed payload being that altered result rather than the original
arguments. -/
theorem routerFormioAudit_gated_prints_altered
    (alter : String → JSVal → JSVal → JSVal → JSVal)
    (event req info : JSVal) :
    routerFormioAudit false alter event req info = (none, false)
    ∧ (routerFormioAudit true alter event req info).2 = true
    ∧ (routerFormioAudit true alter event req info).1 =
        (if truthy (alter "audit" info event req) then
          some (alter "audit" info event req) else none) := by
  refine ⟨rfl, rfl, ?_⟩
  unfold routerFormioAudit
  cases h : truthy (alter "audit" info event req) <;> simp [h]

/-- C10: the CORS wrapper bypasses the cors handler (calls `next()`) exactly
for requests with url `'/'` or with headers already sent; every other request
runs the cors middleware built from `hook.alter('cors')` applied with no
initial value — which is `undefined` when the `cors` point has no handlers. -/
theorem corsWrapper_bypass_and_options
    (alter : String → JSVal → List JSVal → JSVal) (url : String) (hs : Bool) :
    ((url = "/" ∨ hs = true) → corsWrapper alter url hs = .passNext)
    ∧ (url ≠ "/" → hs = false →
        corsWrapper alter url hs = .runCors (alter "cors" .undefined []))
    ∧ (∀ reg : HookRegistry JSVal, reg.handlers "cors" = [] →
        reg.alter "cors" .undefined [] = .undefined) := by
  refine ⟨?_, ?_, ?_⟩
  · rintro (hu | hh) <;> simp [corsWrapper, *]
  · intro hu hh
    simp [corsWrapper, hu, hh]
  · intro reg hreg
    simp [HookRegistry.alter, hreg]

theorem corsWrapper_bypass_and_options_witness :
    ((("/x" : String) = "/" ∨ false = true) →
      corsWrapper (fun _ v _ => v) "/x" false = .passNext)
    ∧ (("/x" : String) ≠ "/" → false = false →
        corsWrapper (fun _ v _ => v) "/x" false =
          .runCors ((fun (_ : String) (v : JSVal) (_ : List JSVal) => v)
            "cors" .undefined []))
    ∧ (∀ reg : HookRegistry JSVal, reg.handlers "cors" = [] →
        reg.alter "cors" .undefined [] = .undefined) :=
  corsWrapper_bypass_and_options (fun _ v _ => v) "/x" false

/-- C9: the memory-leak-prevention middleware resets `util.Formio.forms` and
`util.Formio.cache` on every request and always calls `next()` exactly once;
when `config.maxOldSpace` is set and reading heap usage throws, or forcing
garbage collection throws, the error is caught and logged and the request
still proceeds. -/
theorem memoryLeakPreventionHandler_resets_and_proceeds
    (maxOldSpace : Option Int) (heapRead : Except String Int)
    (gcRun : Except String Unit) (st : MemMWState) :
    (memoryLeakPreventionHandler maxOldSpace heapRead gcRun st).formsReset = true
    ∧ (memoryLeakPreventionHandler maxOldSpace heapRead gcRun st).cacheReset = true
    ∧ (memoryLeakPreventionHandler maxOldSpace heapRead gcRun st).nextCalls =
        st.nextCalls + 1
    ∧ (∀ m msg, maxOldSpace = some m → m ≠ 0 → heapRead = .error msg →
        (memoryLeakPreventionHandler maxOldSpace heapRead gcRun st).loggedErrors =
          st.loggedErrors + 1)
    ∧ (∀ m heap msg, maxOldSpace = some m → m ≠ 0 → heapRead = .ok heap →
        4 * m < 5 * heap → gcRun = .error msg →
        (memoryLeakPreventionHandler maxOldSpace heapRead gcRun st).loggedErrors =
          st.loggedErrors + 1) := by
  unfold memoryLeakPreventionHandler
  rcases maxOldSpace with - | m
  · simp
  · rcases heapRead with msg | heap
    · by_cases hm : m = 0 <;> simp [hm]
    · by_cases hm : m = 0
      · simp [hm]
        intro a b c h1 h2 h3 h4 h5
        exact absurd h1.symm h2
      · by_cases hheap : 4 * m < 5 * heap
        · rcases gcRun with e | u <;> simp [hm, hheap]
        · simp [hm, hheap]
          intro a b c h1 h2 h3 h4 h5
          subst h1
          subst h3
          exact absurd h4 hheap

theorem memoryLeakPreventionHandler_resets_and_proceeds_witness :
    (memoryLeakPreventionHandler (some 1) (.ok 100) (.error "gcfail")
      ⟨false, false, 0, 0, 0⟩).formsReset = true
    ∧ (memoryLeakPreventionHandler (some 1) (.ok 100) (.error "gcfail")
        ⟨false, false, 0, 0, 0⟩).cacheReset = true
    ∧ (memoryLeakPreventionHandler (some 1) (.ok 100) (.error "gcfail")
        ⟨false, false, 0, 0, 0⟩).nextCalls = 0 + 1
    ∧ (∀ m msg, (some (1 : Int)) = some m → m ≠ 0 →
        (Except.ok 100 : Except String Int) = .error msg →
        (memoryLeakPreventionHandler (some 1) (.ok 100) (.error "gcfail")
          ⟨false, false, 0, 0, 0⟩).loggedErrors = 0 + 1)
    ∧ (∀ m heap msg, (some (1 : Int)) = some m → m ≠ 0 →
        (Except.ok 100 : Except String Int) = .ok heap →
        4 * m < 5 * heap →
        (Except.error "gcfail" : Except String Unit) = .error msg →
        (memoryLeakPreventionHandler (some 1) (.ok 100) (.error "gcfail")
          ⟨false, false, 0, 0, 0⟩).loggedErrors = 0 + 1) :=
  memoryLeakPreventionHandler_resets_and_proceeds (some 1) (.ok 100)
    (.error "gcfail") ⟨false, false, 0, 0, 0⟩

/-- C2: for each init extension step checked by `setupMiddlewares` —
`alias`, `params`, `token`, `getTempToken`, `logout`, `current`, `access`,
`config`, `perms` — the corresponding default middleware or route is
installed exactly when `hook.invoke('init', step, router.formio)` is falsy;
when it is truthy, no default is installed for that step. -/
theorem setupMiddlewares_default_iff_invoke_falsy (invokeInit : String → Bool) :
    (.useAlias ∈ setupMiddlewares invokeInit ↔ invokeInit "alias" = false)
    ∧ (.useParams ∈ setupMiddlewares invokeInit ↔ invokeInit "params" = false)
    ∧ (.useTokenHandler ∈ setupMiddlewares invokeInit ↔
        invokeInit "token" = false)
    ∧ (.getTokenRoute ∈ setupMiddlewares invokeInit ↔
        invokeInit "getTempToken" = false)
    ∧ (.getLogoutRoute ∈ setupMiddlewares invokeInit ↔
        invokeInit "logout" = false)
    ∧ (.getCurrentRoute ∈ setupMiddlewares invokeInit ↔
        invokeInit "current" = false)
    ∧ (.getAccessRoute ∈ setupMiddlewares invokeInit ↔
        invokeInit "access" = false)
    ∧ (.useConfigHandler ∈ setupMiddlewares invokeInit ↔
        invokeInit "config" = false)
    ∧ (.usePermissionHandler ∈ setupMiddlewares invokeInit ↔
        invokeInit "perms" = false) := by
  simp [setupMiddlewares, mem_condDefault, List.mem_append]

/-- C1: for every config in which `config.vmTimeout` is absent or not a
positive number, `router.init` fails boot-time configuration: evaluator
construction yields a `ConfigurationError` and no evaluator registration
takes place (`registerEvaluatorCall` is not in the boot trace). -/
theorem routerInit_invalid_vmTimeout_fails
    (vmTimeout : Option Int) (hook : H) (invokeInit : String → Bool)
    (h : ∀ t, vmTimeout = some t → t ≤ 0) :
    (∃ e, (routerInit vmTimeout hook invokeInit).2 = .error e)
    ∧ BootEvent.registerEvaluatorCall ∉ (routerInit vmTimeout hook invokeInit).1 := by
  have hmk : mkIsolateVMEvaluator vmTimeout hook = .error .invalidTimeout := by
    rcases vmTimeout with - | t
    · rfl
    · have ht := h t rfl
      simp [mkIsolateVMEvaluator, show ¬ (0 : Int) < t by omega]
  constructor
  · exact ⟨.invalidTimeout, by simp [routerInit, hmk]⟩
  · simp [routerInit, hmk, List.mem_append, List.mem_map]

theorem routerInit_invalid_vmTimeout_fails_witness :
    (∃ e, (routerInit none () (fun _ => false)).2 = .error e)
    ∧ BootEvent.registerEvaluatorCall ∉ (routerInit none () (fun _ => false)).1 :=
  routerInit_invalid_vmTimeout_fails none () (fun _ => false)
    (by intro t ht; cases ht)

/-- C5: for every `router.init` run with a valid timeout, exactly one
evaluator is constructed and exactly one registration call is made, and the
registered instance carries both the timeout configuration and the reference
to the hook registry (`router.formio.hook`). -/
theorem routerInit_registers_evaluator_once
    (t : Int) (hook : H) (invokeInit : String → Bool) (ht : 0 < t) :
    (routerInit (some t) hook invokeInit).1.count .constructEvaluator = 1
    ∧ (routerInit (some t) hook invokeInit).1.count .registerEvaluatorCall = 1
    ∧ (routerInit (some t) hook invokeInit).2 = .ok ⟨t, hook⟩ := by
  have hmk : mkIsolateVMEvaluator (some t) hook = .ok ⟨t, hook⟩ := by
    simp [mkIsolateVMEvaluator, ht]
  have htr : (routerInit (some t) hook invokeInit).1 =
      ([.storeHooks, .attachUtil, .createHookRegistry, .alterConfigFormio,
        .loadEncrypt, .updateInit, .installMemoryLeakMiddleware] ++
        (setupMiddlewares invokeInit).map BootEvent.install) ++
      [.constructEvaluator, .registerEvaluatorCall, .mongoConnect] := by
    simp [routerInit, hmk]
  have hc : BootEvent.constructEvaluator ∉
      (setupMiddlewares invokeInit).map BootEvent.install := by
    simp [List.mem_map]
  have hr : BootEvent.registerEvaluatorCall ∉
      (setupMiddlewares invokeInit).map BootEvent.install := by
    simp [List.mem_map]
  refine ⟨?_, ?_, by simp [routerInit, hmk]⟩
  · rw [htr, List.count_append, List.count_append,
      List.count_eq_zero.mpr hc]
    decide
  · rw [htr, List.count_append, List.count_append,
      List.count_eq_zero.mpr hr]
    decide

theorem routerInit_registers_evaluator_once_witness :
    (routerInit (some 50) () (fun _ => false)).1.count .constructEvaluator = 1
    ∧ (routerInit (some 50) () (fun _ => false)).1.count .registerEvaluatorCall = 1
    ∧ (routerInit (some 50) () (fun _ => false)).2 = .ok ⟨50, ()⟩ :=
  routerInit_registers_evaluator_once 50 () (fun _ => false) (by decide)

/-- C3: in the `router.init` boot trace the hook registry creation precedes
every conditionally installed default middleware step; every such step
precedes the evaluator construction; the evaluator is constructed, then
registered; and the MongoDB connection is established only after that. -/
theorem routerInit_boot_order
    (t : Int) (hook : H) (invokeInit : String → Bool) (ht : 0 < t) :
    (∀ a ∈ setupMiddlewares invokeInit,
      before (routerInit (some t) hook invokeInit).1
        .createHookRegistry (.install a))
    ∧ (∀ a ∈ setupMiddlewares invokeInit,
      before (routerInit (some t) hook invokeInit).1
        (.install a) .constructEvaluator)
    ∧ before (routerInit (some t) hook invokeInit).1
        .createHookRegistry .constructEvaluator
    ∧ before (routerInit (some t) hook invokeInit).1
        .constructEvaluator .registerEvaluatorCall
    ∧ before (routerInit (some t) hook invokeInit).1
        .registerEvaluatorCall .mongoConnect := by
  have hmk : mkIsolateVMEvaluator (some t) hook = .ok ⟨t, hook⟩ := by
    simp [mkIsolateVMEvaluator, ht]
  refine ⟨?_, ?_, ?_, ?_, ?_⟩
  · intro a ha
    refine before_of_split
      [.storeHooks, .attachUtil, .createHookRegistry]
      ([.alterConfigFormio, .loadEncrypt, .updateInit,
        .installMemoryLeakMiddleware] ++
        (setupMiddlewares invokeInit).map BootEvent.install ++
        [.constructEvaluator, .registerEvaluatorCall, .mongoConnect])
      (by simp [routerInit, hmk]) (by simp) ?_
    simp only [List.mem_append, List.mem_map]
    exact Or.inl (Or.inr ⟨a, ha, rfl⟩)
  · intro a ha
    refine before_of_split
      ([.storeHooks, .attachUtil, .createHookRegistry, .alterConfigFormio,
        .loadEncrypt, .updateInit, .installMemoryLeakMiddleware] ++
        (setupMiddlewares invokeInit).map BootEvent.install)
      [.constructEvaluator, .registerEvaluatorCall, .mongoConnect]
      (by simp [routerInit, hmk]) ?_ (by simp)
    exact List.mem_append_right _ (List.mem_map_of_mem _ ha)
  · refine before_of_split
      [.storeHooks, .attachUtil, .createHookRegistry]
      ([.alterConfigFormio, .loadEncrypt, .updateInit,
        .installMemoryLeakMiddleware] ++
        (setupMiddlewares invokeInit).map BootEvent.install ++
        [.constructEvaluator, .registerEvaluatorCall, .mongoConnect])
      (by simp [routerInit, hmk]) (by simp) (by simp)
  · refine before_of_split
      ([.storeHooks, .attachUtil, .createHookRegistry, .alterConfigFormio,
        .loadEncrypt, .updateInit, .installMemoryLeakMiddleware] ++
        (setupMiddlewares invokeInit).map BootEvent.install ++
        [.constructEvaluator])
      [.registerEvaluatorCall, .mongoConnect]
      (by simp [routerInit, hmk]) (by simp) (by simp)
  · refine before_of_split
      ([.storeHooks, .attachUtil, .createHookRegistry, .alterConfigFormio,
        .loadEncrypt, .updateInit, .installMemoryLeakMiddleware] ++
        (setupMiddlewares invokeInit).map BootEvent.install ++
        [.constructEvaluator, .registerEvaluatorCall])
      [.mongoConnect]
      (by simp [routerInit, hmk]) (by simp) (by simp)

theorem routerInit_boot_order_witness :
    before (routerInit (some 50) () (fun _ => false)).1
      .createHookRegistry .constructEvaluator :=
  (routerInit_boot_order 50 () (fun _ => false) (by decide)).2.2.1

end Formio
